import Mathlib

/-!
# cpp-benchmark-simples: a shallow embedding of `benchmark.cpp`

The program parses one command-line argument (the load factor), runs three
synthetic workloads (matrix product, transcendental maths, sequential memory
write and read) and prints a timing report.

Modelling conventions

* `int` and `long long` are mathematical integers reduced explicitly to the
  signed 32-bit and 64-bit ranges (`wrap32`, `wrap64`) wherever the source
  does arithmetic that can leave the range: the product
  `fator_carga * 100000` and the accumulator `soma`. Signed overflow is taken
  as two's complement wrap-around.
* `double` is `Float` where the program runs (`aritDouble`,
  `benchmark_matematica`); the loops of `benchmark_matrizes` take their
  arithmetic as a parameter, so that they can also be run over `ℚ`.
* `std::cout` and `std::cerr` are lists of inserted items, one per `<<`.
* `std::chrono::high_resolution_clock::now()` is an input: `relogio k` is the
  reading returned by the `k`-th call (in clock ticks).
* C++ exceptions are values of `Excecao`; a function that can throw returns
  `Except Excecao _`; an exception that leaves `main` ends the run abnormally.
  Exhaustion of memory is not modelled: an allocation fails only when the
  requested size exceeds `max_size()`.
* The workloads are `void`; their embeddings return the final value of the
  local state the source computes (the matrices, the accumulator) together
  with what they insert into `std::cout`.
-/

namespace Benchmark

/-! ## Data model -/

/-- Exceptions of the C++ standard library that the program can meet. -/
inductive Excecao
  | invalid_argument
  | out_of_range
  | length_error
  deriving DecidableEq, Repr

/-- One insertion (`<<`) into an output stream. Durations are kept as tick
differences of the clock; `ms` and `segundos` say in which unit the source
prints them. -/
inductive Item
  | texto (s : String)
  | inteiro (v : Int)
  | ms (ticks : Int)
  | segundos (ticks : Int)
  | fixed
  | setprecision (n : Nat)
  | endl
  | flush
  deriving DecidableEq, Repr

/-- A call of one of the three workloads, with the argument it received. -/
inductive Chamada
  | matrizes (n : Int)
  | matematica (num_operacoes : Int)
  | memoria (num_elementos : Int)
  deriving DecidableEq, Repr

/-- How a run of `main` ends: a `return` with an exit code, or an exception
that nobody catches (`std::terminate`). -/
inductive Termino
  | retorno (codigo : Int)
  | excecao (e : Excecao)
  deriving DecidableEq, Repr

/-- Everything observable about one run of `main`. -/
structure Execucao where
  stdout : List Item
  stderr : List Item
  chamadas : List Chamada
  termino : Termino
  deriving DecidableEq, Repr

deriving instance DecidableEq for Except

/-! ## Machine integers -/

/-- Largest `int`. -/
def INT_MAX : Int := 2147483647

/-- Smallest `int`. -/
def INT_MIN : Int := -2147483648

/-- Reduction of an integer to the signed 32-bit range (two's complement). -/
def wrap32 (x : Int) : Int := (x + 2147483648) % 4294967296 - 2147483648

/-- Reduction of an integer to the signed 64-bit range (two's complement). -/
def wrap64 (x : Int) : Int :=
  (x + 9223372036854775808) % 18446744073709551616 - 9223372036854775808

/-- The `max_size()` of a `std::vector<long long>`: `PTRDIFF_MAX / 8`. -/
def vector_max_size : Int := 1152921504606846975

/-! ## `std::stoi` -/

/-- The C locale `isspace`: blank, and the control characters 9 to 13. -/
def isspace (c : Char) : Bool := c.toNat == 32 || (9 ≤ c.toNat && c.toNat ≤ 13)

/-- Value of a run of decimal digits, most significant first. -/
def valor_digitos (ds : List Char) : Int :=
  ds.foldl (fun acc c => 10 * acc + ((c.toNat : Int) - 48)) 0

/-- The optional sign that `strtol` reads before the digits: whether it was a
minus, and what follows it. -/
def le_sinal (cs : List Char) : Bool × List Char :=
  match cs with
  | '-' :: r => (true, r)
  | '+' :: r => (false, r)
  | _ => (false, cs)

/-- The conversion `strtol(s, &end, 10)` that `std::stoi` wraps: skip leading
white space, read an optional sign, then the longest run of decimal digits.
`none` when no digit was read; whatever follows the digits is ignored. -/
def strtol10 (s : String) : Option Int :=
  let sinal := le_sinal (s.toList.dropWhile isspace)
  let ds := sinal.2.takeWhile Char.isDigit
  if ds.isEmpty then none
  else some (if sinal.1 then - valor_digitos ds else valor_digitos ds)

/-- The library function `std::stoi(str)` with its default arguments
(`pos = nullptr`, base 10): `invalid_argument` when no conversion could be
done, `out_of_range` when the value does not fit an `int`. -/
def stoi (s : String) : Except Excecao Int :=
  match strtol10 s with
  | none => .error .invalid_argument
  | some v => if v < INT_MIN ∨ INT_MAX < v then .error .out_of_range else .ok v

/-! ## Workload 1: matrix product -/

/-- The arithmetic `benchmark_matrizes` uses on its element type. -/
structure Aritmetica (α : Type) where
  zero : α
  add : α → α → α
  mul : α → α → α
  ofInt : Int → α
  meio : α
  umEMeio : α

/-- The arithmetic of `double`, as the program runs it. -/
def aritDouble : Aritmetica Float where
  zero := 0.0
  add := fun x y => x + y
  mul := fun x y => x * y
  ofInt := Float.ofInt
  meio := 0.5
  umEMeio := 1.5

/-- Exact rational arithmetic, with `0.5 = 1/2` and `1.5 = 3/2`. -/
def aritExata : Aritmetica ℚ where
  zero := 0
  add := fun x y => x + y
  mul := fun x y => x * y
  ofInt := fun z => (z : ℚ)
  meio := 1 / 2
  umEMeio := 3 / 2

/-- A `std::vector<std::vector<T>>`. -/
abbrev Matriz (α : Type) := List (List α)

/-- Read of `m[i][j]`. -/
def Matriz.le {α : Type} (z : α) (m : Matriz α) (i j : Nat) : α :=
  (m.getD i []).getD j z

/-- Write `m[i][j] = v`. -/
def Matriz.escreve {α : Type} (m : Matriz α) (i j : Nat) (v : α) : Matriz α :=
  m.set i ((m.getD i []).set j v)

/-- The three local matrices of `benchmark_matrizes`. -/
structure Matrizes (α : Type) where
  a : Matriz α
  b : Matriz α
  resultado : Matriz α

/-- The fill loops: `a[i][j] = (i + 1) * 0.5; b[i][j] = (j + 1) * 1.5`. -/
def preenche {α : Type} (ar : Aritmetica α) (n : Nat)
    (ab : Matriz α × Matriz α) : Matriz α × Matriz α :=
  (List.range n).foldl (fun ab i =>
    (List.range n).foldl (fun ab j =>
      (ab.1.escreve i j (ar.mul (ar.ofInt ((i : Int) + 1)) ar.meio),
       ab.2.escreve i j (ar.mul (ar.ofInt ((j : Int) + 1)) ar.umEMeio))) ab) ab

/-- The triple loop `resultado[i][j] += a[i][k] * b[k][j]`, order i, j, k. -/
def multiplica {α : Type} (ar : Aritmetica α) (n : Nat)
    (a b : Matriz α) (resultado : Matriz α) : Matriz α :=
  (List.range n).foldl (fun r i =>
    (List.range n).foldl (fun r j =>
      (List.range n).foldl (fun r k =>
        r.escreve i j
          (ar.add (r.le ar.zero i j) (ar.mul (a.le ar.zero i k) (b.le ar.zero k j)))) r) r)
    resultado

/-- The function `benchmark_matrizes(int n)`. The vector constructors throw
`length_error` for a negative `n` (it converts to a huge `size_type`). -/
def benchmark_matrizes {α : Type} (ar : Aritmetica α) (n : Int) :
    Except Excecao (Matrizes α) :=
  if n < 0 then .error .length_error
  else
    let m := n.toNat
    let zeros : Matriz α := List.replicate m (List.replicate m ar.zero)
    let ab := preenche ar m (zeros, zeros)
    .ok { a := ab.1, b := ab.2, resultado := multiplica ar m ab.1 ab.2 zeros }

/-! ## Workload 2: transcendental maths -/

/-- One iteration of the loop of `benchmark_matematica`. -/
def passo_matematica (valor : Float) : Float :=
  let valor := valor + Float.sin valor
  let valor := valor + Float.cos valor
  valor + Float.log (Float.abs valor + 1.0)

/-- The loop of `benchmark_matematica` run `k` times from `valor`. -/
def laco_matematica : Nat → Float → Float
  | 0, valor => valor
  | k + 1, valor => laco_matematica k (passo_matematica valor)

/-- Number of iterations of a loop `for (long long i = 0; i < limite; ++i)`. -/
def iteracoes (limite : Int) : Nat := limite.toNat

/-- The function `benchmark_matematica(long long num_operacoes)`: what it
inserts into `std::cout`. -/
def benchmark_matematica (num_operacoes : Int) : List Item :=
  let valor := laco_matematica (iteracoes num_operacoes) 1.2345
  if valor == 123.0 then [Item.texto " "] else []

/-! ## Workload 3: memory write and read -/

/-- The write loop `memoria_vec[i] = i` on a vector of `n` zeros. -/
def memoria_escrita (n : Nat) : List Int :=
  (List.range n).foldl (fun v i => v.set i (i : Int)) (List.replicate n 0)

/-- The read loop `soma += memoria_vec[i]` run for the first `k` indices,
with the `long long` accumulator reduced to 64 bits at every step. -/
def memoria_leitura (vec : List Int) (k : Nat) : Int :=
  (List.range k).foldl (fun soma i => wrap64 (soma + vec.getD i 0)) 0

/-- The read loop of `benchmark_memoria` in unbounded integers: the running
sum after the first `k` indices when no reduction to 64 bits is applied. -/
def memoria_leitura_exata (vec : List Int) (k : Nat) : Int :=
  (List.range k).foldl (fun soma i => soma + vec.getD i 0) 0

/-- Value of `soma` when the read loop of `benchmark_memoria` ends. -/
def soma_memoria (num_elementos : Int) : Int :=
  memoria_leitura (memoria_escrita (iteracoes num_elementos)) (iteracoes num_elementos)

/-- The function `benchmark_memoria(long long num_elementos)`: what it
inserts into `std::cout`. The vector constructor throws `length_error` when
the size, converted to `size_type`, exceeds `max_size()`; that is the case of
every negative argument. -/
def benchmark_memoria (num_elementos : Int) : Except Excecao (List Item) :=
  if num_elementos < 0 ∨ vector_max_size < num_elementos then .error .length_error
  else
    let soma := soma_memoria num_elementos
    .ok (if soma = 123 then [Item.texto " "] else [])

/-! ## The function `main` -/

/-- The validation block of `main`: `std::stoi(argv[1])`, then the throw of
`invalid_argument` for a value that is not positive. -/
def le_fator_carga (arg : String) : Except Excecao Int :=
  match stoi arg with
  | .error e => .error e
  | .ok fator_carga =>
    if fator_carga ≤ 0 then .error .invalid_argument else .ok fator_carga

/-- The divider line. -/
def divisor : Item := Item.texto "---------------------------------------------"

/-- The completion marker printed after each workload. -/
def concluido : Item := Item.texto " Concluído."

/-- The report printed after the three workloads. -/
def relatorio (duracao_matriz duracao_math duracao_mem duracao_total : Int) : List Item :=
  [divisor, Item.endl,
   Item.texto "Resultados do Benchmark:", Item.endl,
   Item.fixed, Item.setprecision 2,
   Item.texto " > Teste de Matrizes: ", Item.ms duracao_matriz, Item.texto " ms", Item.endl,
   Item.texto " > Teste de Matemática: ", Item.ms duracao_math, Item.texto " ms", Item.endl,
   Item.texto " > Teste de Memória: ", Item.ms duracao_mem, Item.texto " ms", Item.endl,
   divisor, Item.endl,
   Item.texto "Tempo Total de Execução: ", Item.segundos duracao_total,
   Item.texto " segundos", Item.endl]

/-- The two lines `main` inserts into `std::cerr` for a wrong argument count;
`argv0` is the program name. -/
def mensagem_uso (argv0 : String) : List Item :=
  [Item.texto "Uso: ", Item.texto argv0, Item.texto " <fator_carga>", Item.endl,
   Item.texto "Onde <fator_carga> eh um inteiro (ex: 100, 500, 1000).", Item.endl]

/-- The line `main` inserts into `std::cerr` in its `catch` block. -/
def mensagem_erro : List Item :=
  [Item.texto "Erro: O parâmetro de entrada deve ser um número inteiro válido e positivo.",
   Item.endl]

/-- The start messages of the three workloads and the completion marker: the
texts that delimit the workloads in `std::cout`. -/
def marcos : List Item :=
  [Item.texto "Executando Benchmark de Matrizes (tamanho ",
   Item.texto "Executando Benchmark de Matemática (",
   Item.texto "Executando Benchmark de Memória (",
   concluido]

/-- The function `main(argc, argv)`, with `argc = argv.length`. The product
`fator_carga * 100000` is an `int` product, reduced to 32 bits before it is
widened to `long long`. An empty `argv` has no `argv[0]`; the model prints it
as the empty text. -/
def main (relogio : Nat → Int) (argv : List String) : Execucao :=
  if argv.length ≠ 2 then
    { stdout := []
      stderr := mensagem_uso (argv.headD "")
      chamadas := []
      termino := .retorno 1 }
  else
    match le_fator_carga (argv.getD 1 "") with
    | .error _ =>
      { stdout := []
        stderr := mensagem_erro
        chamadas := []
        termino := .retorno 1 }
    | .ok fator_carga =>
      let out0 : List Item :=
        [Item.texto "Iniciando benchmark com fator de carga: ", Item.inteiro fator_carga,
         Item.endl, divisor, Item.endl]
      let inicio_total := relogio 0
      -- 1. matrices
      let tamanho_matriz := fator_carga
      let out1 := out0 ++
        [Item.texto "Executando Benchmark de Matrizes (tamanho ", Item.inteiro tamanho_matriz,
         Item.texto "x", Item.inteiro tamanho_matriz, Item.texto ")...", Item.flush]
      let inicio_matriz := relogio 1
      match benchmark_matrizes aritDouble tamanho_matriz with
      | .error e =>
        { stdout := out1, stderr := [], chamadas := [.matrizes tamanho_matriz],
          termino := .excecao e }
      | .ok _ =>
        let fim_matriz := relogio 2
        let duracao_matriz := fim_matriz - inicio_matriz
        let out2 := out1 ++ [concluido, Item.endl]
        -- 2. maths
        let num_operacoes := wrap32 (fator_carga * 100000)
        let out3 := out2 ++
          [Item.texto "Executando Benchmark de Matemática (", Item.inteiro num_operacoes,
           Item.texto " operações)...", Item.flush]
        let inicio_math := relogio 3
        let out4 := out3 ++ benchmark_matematica num_operacoes
        let fim_math := relogio 4
        let duracao_math := fim_math - inicio_math
        let out5 := out4 ++ [concluido, Item.endl]
        -- 3. memory
        let num_elementos_mem := wrap32 (fator_carga * 100000)
        let out6 := out5 ++
          [Item.texto "Executando Benchmark de Memória (", Item.inteiro num_elementos_mem,
           Item.texto " elementos)...", Item.flush]
        let inicio_mem := relogio 5
        match benchmark_memoria num_elementos_mem with
        | .error e =>
          { stdout := out6, stderr := []
            chamadas := [.matrizes tamanho_matriz, .matematica num_operacoes,
                         .memoria num_elementos_mem]
            termino := .excecao e }
        | .ok escrito =>
          let out7 := out6 ++ escrito
          let fim_mem := relogio 6
          let duracao_mem := fim_mem - inicio_mem
          let out8 := out7 ++ [concluido, Item.endl]
          let fim_total := relogio 7
          let duracao_total := fim_total - inicio_total
          { stdout := out8 ++ relatorio duracao_matriz duracao_math duracao_mem duracao_total
            stderr := []
            chamadas := [.matrizes tamanho_matriz, .matematica num_operacoes,
                         .memoria num_elementos_mem]
            termino := .retorno 0 }

/-- A clock that advances one tick per reading. -/
def relogioUnitario : Nat → Int := fun k => (k : Int)

/-- What a validated run has inserted into `std::cout` when it reaches the
call of `benchmark_memoria`: `f` is the load factor, `c` the count passed to
the second and third workloads. -/
def saida_ate_memoria (f c : Int) : List Item :=
  [Item.texto "Iniciando benchmark com fator de carga: ", Item.inteiro f, Item.endl,
   divisor, Item.endl,
   Item.texto "Executando Benchmark de Matrizes (tamanho ", Item.inteiro f,
   Item.texto "x", Item.inteiro f, Item.texto ")...", Item.flush,
   concluido, Item.endl,
   Item.texto "Executando Benchmark de Matemática (", Item.inteiro c,
   Item.texto " operações)...", Item.flush] ++
  benchmark_matematica c ++
  [concluido, Item.endl,
   Item.texto "Executando Benchmark de Memória (", Item.inteiro c,
   Item.texto " elementos)...", Item.flush]

/-! ## Auxiliary definitions for the matrix proofs -/

/-- The `n × n` matrix whose entry `(i, j)` is `f i j`. -/
def tabela {α : Type} (n : Nat) (f : Nat → Nat → α) : Matriz α :=
  (List.range n).map (fun i => (List.range n).map (fun j => f i j))

/-- The entry function `f` with the value at `(i, j)` replaced by `v`. -/
def atualiza {α : Type} (f : Nat → Nat → α) (i j : Nat) (v : α) : Nat → Nat → α :=
  fun i2 j2 => if i2 = i ∧ j2 = j then v else f i2 j2

/-- The accumulation `x += g 0; ...; x += g (m-1)` in the arithmetic `ar`. -/
def acumula {α : Type} (ar : Aritmetica α) (g : Nat → α) (m : Nat) (x : α) : α :=
  (List.range m).foldl (fun acc k => ar.add acc (g k)) x

/-! ## Lemmas on `std::stoi` -/

/-- A decimal digit has a code between 48 and 57. -/
theorem isDigit_bounds {c : Char} (h : c.isDigit = true) : 48 ≤ c.toNat ∧ c.toNat ≤ 57 := by
  simp only [Char.isDigit, Bool.and_eq_true, decide_eq_true_eq] at h
  exact ⟨h.1, h.2⟩

/-- The character of a digit below ten is a decimal digit with that value. -/
theorem digitChar_spec (d : Nat) (h : d < 10) :
    (Nat.digitChar d).isDigit = true ∧ ((Nat.digitChar d).toNat : Int) - 48 = d := by
  interval_cases d <;> decide

/-- Reading one more digit multiplies the value by ten and adds the digit. -/
theorem valor_digitos_snoc (pre : List Char) (c : Char) :
    valor_digitos (pre ++ [c]) = 10 * valor_digitos pre + ((c.toNat : Int) - 48) := by
  simp [valor_digitos, List.foldl_append]

/-- The digits that `Nat.toDigitsCore` puts in front of `ds` are decimal digits,
at least one, and their value is `n`. -/
theorem toDigitsCore_spec (fuel : Nat) : ∀ (n : Nat) (ds : List Char), n < fuel →
    ∃ pre, Nat.toDigitsCore 10 fuel n ds = pre ++ ds ∧ pre ≠ [] ∧
      (∀ c ∈ pre, c.isDigit = true) ∧ valor_digitos pre = n := by
  induction fuel with
  | zero => intro n ds h; omega
  | succ fuel ih =>
    intro n ds h
    obtain ⟨hd, hv⟩ := digitChar_spec (n % 10) (Nat.mod_lt _ (by decide))
    unfold Nat.toDigitsCore
    by_cases h0 : n / 10 = 0
    · refine ⟨[Nat.digitChar (n % 10)], by simp [h0], by simp, by simpa using hd, ?_⟩
      simp only [valor_digitos, List.foldl_cons, List.foldl_nil]
      omega
    · obtain ⟨pre, hp, _, hall, hval⟩ := ih (n / 10) (Nat.digitChar (n % 10) :: ds) (by omega)
      refine ⟨pre ++ [Nat.digitChar (n % 10)], by simp [h0, hp], by simp, ?_, ?_⟩
      · intro c hc
        rcases List.mem_append.mp hc with hc | hc
        · exact hall c hc
        · simpa [List.mem_singleton.mp hc] using hd
      · rw [valor_digitos_snoc, hval]
        omega

/-- On a string made of decimal digits only, `strtol10` reads all of it. -/
theorem strtol10_digitos (s : String) (c : Char) (t : List Char) (hs : s.toList = c :: t)
    (hall : ∀ x ∈ c :: t, x.isDigit = true) :
    strtol10 s = some (valor_digitos (c :: t)) := by
  have hc := isDigit_bounds (hall c (by simp))
  have hsp : isspace c = false := by
    simp only [isspace, Bool.or_eq_false_iff, beq_eq_false_iff_ne, ne_eq,
      Bool.and_eq_false_iff, decide_eq_false_iff_not]
    omega
  have hm : c ≠ '-' := by
    intro h; rw [h] at hc; revert hc; decide
  have hp : c ≠ '+' := by
    intro h; rw [h] at hc; revert hc; decide
  have htw : List.takeWhile Char.isDigit (c :: t) = c :: t :=
    List.takeWhile_eq_self_iff.mpr hall
  have hdw : List.dropWhile isspace (c :: t) = c :: t := by
    simp [List.dropWhile_cons, hsp]
  have hsin : le_sinal (c :: t) = (false, c :: t) := by
    unfold le_sinal
    split
    · rename_i r heq
      simp at heq
      exact absurd heq.1 hm
    · rename_i r heq
      simp at heq
      exact absurd heq.1 hp
    · rfl
  unfold strtol10
  rw [hs, hdw, hsin]
  simp [htw]

/-- The function `stoi` reads back the base-10 string of a natural number that fits an
`int`. -/
theorem stoi_toString (n : Nat) (h : (n : Int) ≤ INT_MAX) : stoi (toString n) = .ok (n : Int) := by
  obtain ⟨pre, hp, hne, hall, hval⟩ := toDigitsCore_spec (n + 1) n [] (by omega)
  have hl : (toString n).toList = pre := by
    show (Nat.repr n).toList = pre
    simp [Nat.repr, Nat.toDigits, hp, List.asString]
  cases pre with
  | nil => exact absurd rfl hne
  | cons c t =>
    unfold stoi
    rw [strtol10_digitos _ c t hl hall, hval]
    simp only [INT_MAX, INT_MIN] at h ⊢
    rw [if_neg (by omega)]

/-! ## Lemmas on `main` -/

/-- With a wrong argument count `main` prints the usage text and returns 1. -/
theorem main_argc (relogio : Nat → Int) (argv : List String) (h : argv.length ≠ 2) :
    main relogio argv =
      { stdout := []
        stderr := mensagem_uso (argv.headD "")
        chamadas := []
        termino := .retorno 1 } := by
  simp [main, h]

/-- When the validation block throws, `main` prints the error text and returns 1. -/
theorem main_erro (relogio : Nat → Int) (argv : List String) (e : Excecao)
    (h : argv.length = 2) (he : le_fator_carga (argv.getD 1 "") = .error e) :
    main relogio argv =
      { stdout := []
        stderr := mensagem_erro
        chamadas := []
        termino := .retorno 1 } := by
  unfold main
  rw [if_neg (by omega), he]

/-- A value accepted by the validation block is a positive `int`. -/
theorem le_fator_carga_ok {arg : String} {f : Int} (h : le_fator_carga arg = .ok f) :
    stoi arg = .ok f ∧ 0 < f ∧ f ≤ INT_MAX := by
  unfold le_fator_carga at h
  cases hs : stoi arg with
  | error e => simp [hs] at h
  | ok v =>
    simp only [hs] at h
    split at h
    · simp at h
    · have hv : v = f := by simpa using h
      subst hv
      refine ⟨rfl, by omega, ?_⟩
      unfold stoi at hs
      split at hs
      · simp at hs
      · split at hs
        · simp at hs
        · rename_i v0 _ hr
          have : v0 = v := by simpa using hs
          subst this
          omega

/-- The matrix workload does not throw for a size that is not negative. -/
theorem benchmark_matrizes_ok {α : Type} (ar : Aritmetica α) (n : Int) (h : 0 ≤ n) :
    ∃ m, benchmark_matrizes ar n = .ok m := by
  unfold benchmark_matrizes
  rw [if_neg (by omega)]
  exact ⟨_, rfl⟩

/-- A validated run: everything up to the third workload happens, and the end
depends on whether `benchmark_memoria` throws. -/
theorem main_ok (relogio : Nat → Int) (argv : List String) (f : Int)
    (h : argv.length = 2) (hf : le_fator_carga (argv.getD 1 "") = .ok f) :
    main relogio argv =
      match benchmark_memoria (wrap32 (f * 100000)) with
      | .error e =>
        { stdout := saida_ate_memoria f (wrap32 (f * 100000))
          stderr := []
          chamadas := [.matrizes f, .matematica (wrap32 (f * 100000)),
                       .memoria (wrap32 (f * 100000))]
          termino := .excecao e }
      | .ok escrito =>
        { stdout := saida_ate_memoria f (wrap32 (f * 100000)) ++ escrito ++
            [concluido, Item.endl] ++
            relatorio (relogio 2 - relogio 1) (relogio 4 - relogio 3)
              (relogio 6 - relogio 5) (relogio 7 - relogio 0)
          stderr := []
          chamadas := [.matrizes f, .matematica (wrap32 (f * 100000)),
                       .memoria (wrap32 (f * 100000))]
          termino := .retorno 0 } := by
  obtain ⟨_, hpos, _⟩ := le_fator_carga_ok hf
  obtain ⟨m, hm⟩ := benchmark_matrizes_ok aritDouble f (by omega)
  unfold main
  rw [if_neg (by omega), hf]
  simp only [hm]
  cases benchmark_memoria (wrap32 (f * 100000)) <;> simp [saida_ate_memoria]

/-- The stream `std::cerr` stays empty exactly when `main` does not return 1,
and a return of 1 leaves `std::cout` and the workloads untouched. -/
theorem main_streams (relogio : Nat → Int) (argv : List String) :
    ((main relogio argv).termino = .retorno 1 ∧ (main relogio argv).stderr ≠ [] ∧
      (main relogio argv).stdout = [] ∧ (main relogio argv).chamadas = []) ∨
    ((main relogio argv).termino ≠ .retorno 1 ∧ (main relogio argv).stderr = []) := by
  by_cases h : argv.length = 2
  · cases hf : le_fator_carga (argv.getD 1 "") with
    | error e => left; rw [main_erro relogio argv e h hf]; simp [mensagem_erro]
    | ok f =>
      right
      rw [main_ok relogio argv f h hf]
      cases benchmark_memoria (wrap32 (f * 100000)) <;> simp
  · left; rw [main_argc relogio argv h]; simp [mensagem_uso]

/-- For a count between 0 and `max_size()` the memory workload does not throw. -/
theorem benchmark_memoria_ok (c : Int) (h0 : 0 ≤ c) (h1 : c ≤ vector_max_size) :
    benchmark_memoria c = .ok (if soma_memoria c = 123 then [Item.texto " "] else []) := by
  unfold benchmark_memoria
  rw [if_neg (by omega)]

/-- For a negative count the vector constructor of the memory workload throws. -/
theorem benchmark_memoria_throws (c : Int) (h : c < 0) :
    benchmark_memoria c = .error .length_error := by
  unfold benchmark_memoria
  rw [if_pos (Or.inl h)]

/-- The maths workload inserts nothing or one blank into `std::cout`. -/
theorem benchmark_matematica_cases (c : Int) :
    benchmark_matematica c = [] ∨ benchmark_matematica c = [Item.texto " "] := by
  unfold benchmark_matematica
  dsimp only
  split
  · exact Or.inr rfl
  · exact Or.inl rfl

/-- A validated run whose count is not negative returns 0 with the full output. -/
theorem main_completo (relogio : Nat → Int) (argv : List String) (f : Int)
    (h : argv.length = 2) (hf : le_fator_carga (argv.getD 1 "") = .ok f)
    (hc : 0 ≤ wrap32 (f * 100000)) :
    main relogio argv =
      { stdout := saida_ate_memoria f (wrap32 (f * 100000)) ++
            (if soma_memoria (wrap32 (f * 100000)) = 123 then [Item.texto " "] else []) ++
            [concluido, Item.endl] ++
            relatorio (relogio 2 - relogio 1) (relogio 4 - relogio 3)
              (relogio 6 - relogio 5) (relogio 7 - relogio 0)
        stderr := []
        chamadas := [.matrizes f, .matematica (wrap32 (f * 100000)),
                     .memoria (wrap32 (f * 100000))]
        termino := .retorno 0 } := by
  have hmax : wrap32 (f * 100000) ≤ vector_max_size := by
    unfold wrap32 vector_max_size; omega
  rw [main_ok relogio argv f h hf, benchmark_memoria_ok _ hc hmax]

/-- The delimiting texts of a complete run, in the order they are inserted. -/
theorem marcos_completo (f c : Int) (d1 d2 d3 d4 : Int) (esc : List Item)
    (he : esc = [] ∨ esc = [Item.texto " "]) :
    (saida_ate_memoria f c ++ esc ++ [concluido, Item.endl] ++ relatorio d1 d2 d3 d4).filter
        (fun it => decide (it ∈ marcos)) =
      [Item.texto "Executando Benchmark de Matrizes (tamanho ", concluido,
       Item.texto "Executando Benchmark de Matemática (", concluido,
       Item.texto "Executando Benchmark de Memória (", concluido] := by
  unfold saida_ate_memoria
  rcases benchmark_matematica_cases c with hm | hm <;> rcases he with he | he <;>
    rw [hm, he] <;> simp [List.filter, marcos, concluido, relatorio, divisor]


/-- The memory workload inserts nothing or one blank into `std::cout`. -/
theorem escrito_cases (c : Int) :
    (if soma_memoria c = 123 then [Item.texto " "] else ([] : List Item)) = [] ∨
    (if soma_memoria c = 123 then [Item.texto " "] else ([] : List Item)) = [Item.texto " "] := by
  split
  · exact Or.inr rfl
  · exact Or.inl rfl

/-- A run with the six delimiting texts in order holds three completion markers. -/
theorem contagem_marcos (l : List Item)
    (h : l.filter (fun it => decide (it ∈ marcos)) =
      [Item.texto "Executando Benchmark de Matrizes (tamanho ", concluido,
       Item.texto "Executando Benchmark de Matemática (", concluido,
       Item.texto "Executando Benchmark de Memória (", concluido]) :
    l.count concluido = 3 := by
  have hc := @List.count_filter Item _ _ (fun it => decide (it ∈ marcos)) concluido l
    (by decide)
  rw [← hc, h]
  decide

/-- The function `main` returns 1 exactly when the argument count is wrong or the
validation block throws. -/
theorem main_retorno_um_iff (relogio : Nat → Int) (argv : List String) :
    (main relogio argv).termino = .retorno 1 ↔
      (argv.length ≠ 2 ∨ ∃ e, le_fator_carga (argv.getD 1 "") = .error e) := by
  by_cases h : argv.length = 2
  · cases hf : le_fator_carga (argv.getD 1 "") with
    | error e =>
      rw [main_erro relogio argv e h hf]
      exact ⟨fun _ => Or.inr ⟨e, rfl⟩, fun _ => rfl⟩
    | ok f =>
      rw [main_ok relogio argv f h hf]
      constructor
      · intro ht
        cases hb : benchmark_memoria (wrap32 (f * 100000)) <;> rw [hb] at ht <;> simp at ht
      · rintro (hn | ⟨e, he⟩)
        · exact absurd h hn
        · simp at he
  · rw [main_argc relogio argv h]
    exact ⟨fun _ => Or.inl h, fun _ => rfl⟩

/-! ## Lemmas on the memory workload -/

/-- Reducing an intermediate sum to 64 bits does not change the reduced total. -/
theorem wrap64_add_wrap64 (a b : Int) : wrap64 (wrap64 a + b) = wrap64 (a + b) := by
  unfold wrap64
  omega

/-- A value in the `long long` range is left as it is. -/
theorem wrap64_id (x : Int) (h0 : -9223372036854775808 ≤ x) (h1 : x ≤ 9223372036854775807) :
    wrap64 x = x := by
  unfold wrap64
  omega

/-- The write loop run for the first `m` indices of a vector `l`. -/
theorem escrita_parcial (l : List Int) (m : Nat) :
    ((List.range m).foldl (fun v i => v.set i (i : Int)) l).length = l.length ∧
    ∀ i, ((List.range m).foldl (fun v i => v.set i (i : Int)) l).getD i 0 =
      if i < m ∧ i < l.length then (i : Int) else l.getD i 0 := by
  induction m with
  | zero => simp
  | succ m ih =>
    obtain ⟨hlen, hget⟩ := ih
    rw [List.range_succ, List.foldl_append]
    simp only [List.foldl_cons, List.foldl_nil, List.length_set, hlen, true_and]
    intro i
    rw [List.getD_eq_getElem?_getD, List.getElem?_set, hlen]
    by_cases hi : m = i
    · subst hi
      by_cases hl : m < l.length
      · simp [hl]
      · have := hget m
        simp only [hl, and_false, if_false] at this
        simp [hl]
        rw [List.getD_eq_getElem?_getD] at this
        simp at hl
        simp [List.getElem?_eq_none hl]
    · rw [if_neg hi, ← List.getD_eq_getElem?_getD, hget i]
      by_cases h1 : i < m
      · simp [h1, Nat.lt_succ_of_lt h1]
      · have : ¬ i < m + 1 := by omega
        simp [h1, this]

/-- After the write loop element `i` holds `i`. -/
theorem memoria_escrita_getD (n i : Nat) (h : i < n) : (memoria_escrita n).getD i 0 = (i : Int) := by
  unfold memoria_escrita
  rw [(escrita_parcial (List.replicate n 0) n).2 i]
  simp [h]

/-- The write loop keeps the length of the vector. -/
theorem memoria_escrita_length (n : Nat) : (memoria_escrita n).length = n := by
  unfold memoria_escrita
  rw [(escrita_parcial (List.replicate n 0) n).1]
  simp

/-- The unbounded read loop over a vector with `vec[i] = i` sums `0..k-1`. -/
theorem leitura_exata_soma (vec : List Int) (k : Nat) (h : ∀ i, i < k → vec.getD i 0 = (i : Int)) :
    memoria_leitura_exata vec k = ((∑ i in Finset.range k, i : Nat) : Int) := by
  induction k with
  | zero => simp [memoria_leitura_exata]
  | succ k ih =>
    have ih2 := ih (fun i hi => h i (Nat.lt_succ_of_lt hi))
    unfold memoria_leitura_exata at ih2 ⊢
    rw [List.range_succ, List.foldl_append, ih2, Finset.sum_range_succ]
    simp only [List.foldl_cons, List.foldl_nil, h k (Nat.lt_succ_self k)]
    push_cast
    rfl

/-- The 64-bit read loop is the reduction of the unbounded one. -/
theorem leitura_wrap (vec : List Int) (k : Nat) :
    memoria_leitura vec k = wrap64 (memoria_leitura_exata vec k) := by
  induction k with
  | zero => simp [memoria_leitura, memoria_leitura_exata, wrap64]
  | succ k ih =>
    unfold memoria_leitura memoria_leitura_exata at ih ⊢
    rw [List.range_succ, List.foldl_append, List.foldl_append, ih]
    simp only [List.foldl_cons, List.foldl_nil]
    exact wrap64_add_wrap64 _ _

/-- Twice the sum of `0..k-1`, over the integers. -/
theorem soma_dobro (k : Nat) :
    (((∑ i in Finset.range k, i : Nat) : Int)) * 2 = (k : Int) * ((k : Int) - 1) := by
  have h := Finset.sum_range_id_mul_two k
  cases k with
  | zero => simp
  | succ k =>
    have : ((∑ i in Finset.range (k + 1), i : Nat) : Int) * 2 = ((k + 1 : Nat) : Int) * ((k + 1 - 1 : Nat) : Int) := by
      exact_mod_cast h
    rw [this]
    push_cast
    simp

/-- The closed form of the sum of `0..k-1`. -/
theorem soma_fechada (k : Nat) :
    ((∑ i in Finset.range k, i : Nat) : Int) = (k : Int) * ((k : Int) - 1) / 2 := by
  rw [← soma_dobro k]
  simp

/-- The accumulator of `benchmark_memoria` is the 64-bit reduction of the sum
of `0..n-1`, for every count. -/
theorem soma_memoria_eq (c : Int) :
    soma_memoria c = wrap64 ((∑ i in Finset.range (iteracoes c), i : Nat) : Int) := by
  unfold soma_memoria
  rw [leitura_wrap, leitura_exata_soma _ _ (fun i hi => memoria_escrita_getD _ i hi)]

/-- The write loop leaves the vector `0, 1, ..., n-1`. -/
theorem memoria_escrita_eq (n : Nat) :
    memoria_escrita n = (List.range n).map Int.ofNat := by
  apply List.ext_getElem
  · simp [memoria_escrita_length]
  · intro i h1 h2
    have hi : i < n := by simpa [memoria_escrita_length] using h1
    rw [← List.getD_eq_getElem _ 0 h1, memoria_escrita_getD n i hi]
    simp

/-- An odd integer is coprime to every power of two. -/
theorem coprime_pow_two_of_odd (x k : Int) (e : Nat) (h : x = 2 * k + 1) :
    IsCoprime ((2 : Int) ^ e) x := by
  apply IsCoprime.pow_left
  exact ⟨-k, 1, by rw [h]; ring⟩

/-- No `n` below `2^63` has `n * (n - 1) = 246` modulo `2^65`: the two roots of
the congruence, `15440584454929765582` and its mirror image, lie above. -/
theorem sem_raiz (n q : Int) (h0 : 0 ≤ n) (h1 : n ≤ 9223372036854775807)
    (h : n * (n - 1) = 246 + 36893488147419103232 * q) : False := by
  have hr : (15440584454929765582 : Int) * (15440584454929765582 - 1) =
      246 + 36893488147419103232 * 6462160676083887603 := by norm_num
  have hd : ((2 : Int) ^ 65) ∣ (n - 15440584454929765582) * (n + 15440584454929765582 - 1) := by
    refine ⟨q - 6462160676083887603, ?_⟩
    have e : (n - 15440584454929765582) * (n + 15440584454929765582 - 1) =
        n * (n - 1) - (15440584454929765582 : Int) * (15440584454929765582 - 1) := by ring
    rw [e, h, hr]
    norm_num
    ring
  rcases Int.even_or_odd' n with ⟨k, hk | hk⟩
  · -- n even: the second factor is odd
    have hc : IsCoprime ((2 : Int) ^ 65) (n + 15440584454929765582 - 1) :=
      coprime_pow_two_of_odd _ (k + 7720292227464882790) 65 (by rw [hk]; ring)
    have hdv : ((2 : Int) ^ 65) ∣ (n - 15440584454929765582) :=
      hc.dvd_of_dvd_mul_right hd
    norm_num at hdv
    omega
  · -- n odd: the first factor is odd
    have hc : IsCoprime ((2 : Int) ^ 65) (n - 15440584454929765582) :=
      coprime_pow_two_of_odd _ (k - 7720292227464882791) 65 (by rw [hk]; ring)
    have hdv : ((2 : Int) ^ 65) ∣ (n + 15440584454929765582 - 1) :=
      hc.dvd_of_dvd_mul_left hd
    norm_num at hdv
    omega

/-- The accumulator never equals the sentinel, for every count a `long long`
can hold. -/
theorem soma_memoria_ne_123 (c : Int) (h1 : c ≤ 9223372036854775807) : soma_memoria c ≠ 123 := by
  intro h
  rw [soma_memoria_eq] at h
  have h2 := soma_dobro (iteracoes c)
  have hn0 : (0 : Int) ≤ (iteracoes c : Int) := Int.ofNat_nonneg _
  have hn1 : ((iteracoes c : Nat) : Int) ≤ 9223372036854775807 := by
    unfold iteracoes; omega
  generalize ((∑ i in Finset.range (iteracoes c), i : Nat) : Int) = t at h h2
  unfold wrap64 at h
  have hq : t = 123 + 18446744073709551616 * ((t + 9223372036854775808) / 18446744073709551616) := by
    omega
  apply sem_raiz (iteracoes c : Int) ((t + 9223372036854775808) / 18446744073709551616) hn0 hn1
  rw [← h2]
  omega

/-! ## Lemmas on the matrix workload -/

/-- Row `i` of a table. -/
theorem tabela_linha {α : Type} (n : Nat) (f : Nat → Nat → α) (i : Nat) (hi : i < n) :
    (tabela n f).getD i [] = (List.range n).map (fun j => f i j) := by
  unfold tabela
  rw [List.getD_eq_getElem _ _ (by simpa using hi)]
  simp

/-- Reading entry `(i, j)` of a table. -/
theorem tabela_le {α : Type} (z : α) (n : Nat) (f : Nat → Nat → α) (i j : Nat)
    (hi : i < n) (hj : j < n) : (tabela n f).le z i j = f i j := by
  unfold Matriz.le
  rw [tabela_linha n f i hi, List.getD_eq_getElem _ _ (by simpa using hj)]
  simp

/-- Tables with the same entries inside the square are equal. -/
theorem tabela_congr {α : Type} (n : Nat) (f g : Nat → Nat → α)
    (h : ∀ i j, i < n → j < n → f i j = g i j) : tabela n f = tabela n g := by
  unfold tabela
  apply List.map_congr_left
  intro i hi
  apply List.map_congr_left
  intro j hj
  exact h i j (List.mem_range.mp hi) (List.mem_range.mp hj)

/-- Writing entry `(i, j)` of a table. -/
theorem tabela_escreve {α : Type} (n : Nat) (f : Nat → Nat → α) (i j : Nat) (v : α)
    (hi : i < n) :
    (tabela n f).escreve i j v = tabela n (atualiza f i j v) := by
  unfold Matriz.escreve
  rw [tabela_linha n f i hi]
  apply List.ext_getElem
  · simp [tabela]
  · intro r h1 h2
    have hr : r < n := by simpa [tabela] using h2
    rw [List.getElem_set]
    by_cases hir : i = r
    · subst hir
      rw [if_pos rfl]
      simp only [tabela, List.getElem_map, List.getElem_range]
      apply List.ext_getElem
      · simp
      · intro c h3 h4
        have hc : c < n := by simpa using h4
        rw [List.getElem_set]
        by_cases hjc : j = c
        · subst hjc
          simp [atualiza]
        · rw [if_neg hjc]
          simp [atualiza, Ne.symm hjc]
    · rw [if_neg hir]
      simp only [tabela, List.getElem_map, List.getElem_range]
      apply List.map_congr_left
      intro c _
      simp [atualiza, Ne.symm hir]

/-- Invariant rule for a loop `for (t = 0; t < m; ++t)`. -/
theorem foldl_range_inv {σ : Type} (passo : σ → Nat → σ) (P : Nat → σ → Prop) (s0 : σ)
    (m : Nat) (h0 : P 0 s0) (hpasso : ∀ t s, t < m → P t s → P (t + 1) (passo s t)) :
    P m ((List.range m).foldl passo s0) := by
  induction m with
  | zero => simpa using h0
  | succ m ih =>
    rw [List.range_succ, List.foldl_append]
    simp only [List.foldl_cons, List.foldl_nil]
    exact hpasso m _ (Nat.lt_succ_self m)
      (ih (fun t s ht hp => hpasso t s (Nat.lt_succ_of_lt ht) hp))

/-- One more term of an accumulation. -/
theorem acumula_succ {α : Type} (ar : Aritmetica α) (g : Nat → α) (m : Nat) (x : α) :
    acumula ar g (m + 1) x = ar.add (acumula ar g m x) (g m) := by
  unfold acumula
  rw [List.range_succ, List.foldl_append]
  rfl

/-- The innermost loop of the product: entry `(i, j)` accumulates `m` terms. -/
theorem laco_k {α : Type} (ar : Aritmetica α) (n : Nat) (g : Nat → α) (f : Nat → Nat → α)
    (i j : Nat) (hi : i < n) (hj : j < n) (m : Nat) :
    (List.range m).foldl (fun r k => r.escreve i j (ar.add (r.le ar.zero i j) (g k)))
        (tabela n f) =
      tabela n (fun i2 j2 => if i2 = i ∧ j2 = j then acumula ar g m (f i j) else f i2 j2) := by
  apply foldl_range_inv
    (fun r k => r.escreve i j (ar.add (r.le ar.zero i j) (g k)))
    (fun t r => r = tabela n
      (fun i2 j2 => if i2 = i ∧ j2 = j then acumula ar g t (f i j) else f i2 j2))
  · apply tabela_congr
    intro i2 j2 _ _
    by_cases h : i2 = i ∧ j2 = j
    · rw [if_pos h, h.1, h.2]; rfl
    · rw [if_neg h]
  · intro t s _ hs
    rw [hs, tabela_le _ _ _ _ _ hi hj, tabela_escreve _ _ _ _ _ hi, if_pos ⟨rfl, rfl⟩,
      ← acumula_succ]
    apply tabela_congr
    intro i2 j2 _ _
    unfold atualiza
    by_cases h : i2 = i ∧ j2 = j
    · simp only [if_pos h]
    · simp only [if_neg h]

/-- The middle loop of the product: the first `m` entries of row `i` are done. -/
theorem laco_j {α : Type} (ar : Aritmetica α) (n : Nat) (a b : Matriz α)
    (f : Nat → Nat → α) (i : Nat) (hi : i < n) (m : Nat) (hm : m ≤ n) :
    (List.range m).foldl (fun r j =>
        (List.range n).foldl (fun r k =>
          r.escreve i j
            (ar.add (r.le ar.zero i j) (ar.mul (a.le ar.zero i k) (b.le ar.zero k j)))) r)
        (tabela n f) =
      tabela n (fun i2 j2 => if i2 = i ∧ j2 < m then
        acumula ar (fun k => ar.mul (a.le ar.zero i k) (b.le ar.zero k j2)) n (f i j2)
        else f i2 j2) := by
  apply foldl_range_inv
    (fun r j =>
        (List.range n).foldl (fun r k =>
          r.escreve i j
            (ar.add (r.le ar.zero i j) (ar.mul (a.le ar.zero i k) (b.le ar.zero k j)))) r)
    (fun t r => r = tabela n (fun i2 j2 => if i2 = i ∧ j2 < t then
        acumula ar (fun k => ar.mul (a.le ar.zero i k) (b.le ar.zero k j2)) n (f i j2)
        else f i2 j2))
  · apply tabela_congr
    intro i2 j2 _ _
    simp
  · intro t s ht hs
    rw [hs, laco_k ar n (fun k => ar.mul (a.le ar.zero i k) (b.le ar.zero k t)) _ i t hi
      (by omega) n]
    apply tabela_congr
    intro i2 j2 _ _
    by_cases h1 : i2 = i ∧ j2 = t
    · obtain ⟨h1a, h1b⟩ := h1
      subst h1a h1b
      simp
    · by_cases h2 : i2 = i ∧ j2 < t
      · have h3 : i2 = i ∧ j2 < t + 1 := ⟨h2.1, by omega⟩
        simp only [if_neg h1, if_pos h2, if_pos h3]
      · have h3 : ¬ (i2 = i ∧ j2 < t + 1) := by
          intro h; apply h2; refine ⟨h.1, ?_⟩
          have : j2 ≠ t := fun e => h1 ⟨h.1, e⟩
          omega
        simp only [if_neg h1, if_neg h2, if_neg h3]

/-- The outer loop of the product: the first `m` rows are done. -/
theorem laco_i {α : Type} (ar : Aritmetica α) (n : Nat) (a b : Matriz α)
    (f : Nat → Nat → α) (m : Nat) (hm : m ≤ n) :
    (List.range m).foldl (fun r i =>
        (List.range n).foldl (fun r j =>
          (List.range n).foldl (fun r k =>
            r.escreve i j
              (ar.add (r.le ar.zero i j) (ar.mul (a.le ar.zero i k) (b.le ar.zero k j)))) r) r)
        (tabela n f) =
      tabela n (fun i2 j2 => if i2 < m ∧ j2 < n then
        acumula ar (fun k => ar.mul (a.le ar.zero i2 k) (b.le ar.zero k j2)) n (f i2 j2)
        else f i2 j2) := by
  apply foldl_range_inv
    (fun r i =>
        (List.range n).foldl (fun r j =>
          (List.range n).foldl (fun r k =>
            r.escreve i j
              (ar.add (r.le ar.zero i j) (ar.mul (a.le ar.zero i k) (b.le ar.zero k j)))) r) r)
    (fun t r => r = tabela n (fun i2 j2 => if i2 < t ∧ j2 < n then
        acumula ar (fun k => ar.mul (a.le ar.zero i2 k) (b.le ar.zero k j2)) n (f i2 j2)
        else f i2 j2))
  · apply tabela_congr
    intro i2 j2 _ _
    simp
  · intro t s ht hs
    rw [hs, laco_j ar n a b _ t (by omega) n (Nat.le_refl n)]
    apply tabela_congr
    intro i2 j2 _ hj2
    by_cases h1 : i2 = t
    · subst h1
      simp [hj2]
    · by_cases h2 : i2 < t
      · have h3 : i2 < t + 1 := by omega
        simp [h1, h2, h3, hj2]
      · have h3 : ¬ i2 < t + 1 := by omega
        simp [h1, h2, h3]

/-- The product loops on a table: every entry accumulates its `n` terms. -/
theorem multiplica_tabela {α : Type} (ar : Aritmetica α) (n : Nat) (a b : Matriz α)
    (f : Nat → Nat → α) :
    multiplica ar n a b (tabela n f) =
      tabela n (fun i j =>
        acumula ar (fun k => ar.mul (a.le ar.zero i k) (b.le ar.zero k j)) n (f i j)) := by
  unfold multiplica
  rw [laco_i ar n a b f n (Nat.le_refl n)]
  apply tabela_congr
  intro i j hi hj
  simp [hi, hj]

/-- The inner fill loop: the first `m` entries of row `i` of both matrices. -/
theorem laco_preenche_j {α : Type} (ar : Aritmetica α) (n : Nat) (fa fb : Nat → Nat → α)
    (i : Nat) (hi : i < n) (m : Nat) :
    (List.range m).foldl (fun (ab : Matriz α × Matriz α) j =>
        (ab.1.escreve i j (ar.mul (ar.ofInt ((i : Int) + 1)) ar.meio),
         ab.2.escreve i j (ar.mul (ar.ofInt ((j : Int) + 1)) ar.umEMeio)))
        (tabela n fa, tabela n fb) =
      (tabela n (fun i2 j2 => if i2 = i ∧ j2 < m then
          ar.mul (ar.ofInt ((i2 : Int) + 1)) ar.meio else fa i2 j2),
       tabela n (fun i2 j2 => if i2 = i ∧ j2 < m then
          ar.mul (ar.ofInt ((j2 : Int) + 1)) ar.umEMeio else fb i2 j2)) := by
  apply foldl_range_inv
    (fun (ab : Matriz α × Matriz α) j =>
        (ab.1.escreve i j (ar.mul (ar.ofInt ((i : Int) + 1)) ar.meio),
         ab.2.escreve i j (ar.mul (ar.ofInt ((j : Int) + 1)) ar.umEMeio)))
    (fun t ab => ab =
      (tabela n (fun i2 j2 => if i2 = i ∧ j2 < t then
          ar.mul (ar.ofInt ((i2 : Int) + 1)) ar.meio else fa i2 j2),
       tabela n (fun i2 j2 => if i2 = i ∧ j2 < t then
          ar.mul (ar.ofInt ((j2 : Int) + 1)) ar.umEMeio else fb i2 j2)))
  · simp
  · intro t s ht hs
    rw [hs]
    simp only [tabela_escreve _ _ _ _ _ hi]
    congr 1
    · apply tabela_congr
      intro i2 j2 _ _
      unfold atualiza
      by_cases h1 : i2 = i ∧ j2 = t
      · obtain ⟨h1a, h1b⟩ := h1
        subst h1a h1b
        simp
      · by_cases h2 : i2 = i ∧ j2 < t
        · have h3 : i2 = i ∧ j2 < t + 1 := ⟨h2.1, by omega⟩
          simp only [if_neg h1, if_pos h2, if_pos h3]
        · have h3 : ¬ (i2 = i ∧ j2 < t + 1) := by
            intro h; apply h2; refine ⟨h.1, ?_⟩
            have : j2 ≠ t := fun e => h1 ⟨h.1, e⟩
            omega
          simp only [if_neg h1, if_neg h2, if_neg h3]
    · apply tabela_congr
      intro i2 j2 _ _
      unfold atualiza
      by_cases h1 : i2 = i ∧ j2 = t
      · obtain ⟨h1a, h1b⟩ := h1
        subst h1a h1b
        simp
      · by_cases h2 : i2 = i ∧ j2 < t
        · have h3 : i2 = i ∧ j2 < t + 1 := ⟨h2.1, by omega⟩
          simp only [if_neg h1, if_pos h2, if_pos h3]
        · have h3 : ¬ (i2 = i ∧ j2 < t + 1) := by
            intro h; apply h2; refine ⟨h.1, ?_⟩
            have : j2 ≠ t := fun e => h1 ⟨h.1, e⟩
            omega
          simp only [if_neg h1, if_neg h2, if_neg h3]

/-- The fill loops on tables: `a[i][j] = (i + 1) * 0.5`, `b[i][j] = (j + 1) * 1.5`. -/
theorem preenche_tabela {α : Type} (ar : Aritmetica α) (n : Nat) (fa fb : Nat → Nat → α) :
    preenche ar n (tabela n fa, tabela n fb) =
      (tabela n (fun i _ => ar.mul (ar.ofInt ((i : Int) + 1)) ar.meio),
       tabela n (fun _ j => ar.mul (ar.ofInt ((j : Int) + 1)) ar.umEMeio)) := by
  unfold preenche
  have key := foldl_range_inv
    (fun (ab : Matriz α × Matriz α) i =>
      (List.range n).foldl (fun (ab : Matriz α × Matriz α) j =>
        (ab.1.escreve i j (ar.mul (ar.ofInt ((i : Int) + 1)) ar.meio),
         ab.2.escreve i j (ar.mul (ar.ofInt ((j : Int) + 1)) ar.umEMeio))) ab)
    (fun t ab => ab =
      (tabela n (fun i2 j2 => if i2 < t ∧ j2 < n then
          ar.mul (ar.ofInt ((i2 : Int) + 1)) ar.meio else fa i2 j2),
       tabela n (fun i2 j2 => if i2 < t ∧ j2 < n then
          ar.mul (ar.ofInt ((j2 : Int) + 1)) ar.umEMeio else fb i2 j2)))
    (tabela n fa, tabela n fb) n (by simp) (by
      intro t s ht hs
      rw [hs]
      dsimp only
      rw [laco_preenche_j ar n _ _ t ht n]
      congr 1
      · apply tabela_congr
        intro i2 j2 _ hj2
        by_cases h1 : i2 = t
        · subst h1
          simp [hj2]
        · by_cases h2 : i2 < t
          · have h3 : i2 < t + 1 := by omega
            simp [h1, h2, h3, hj2]
          · have h3 : ¬ i2 < t + 1 := by omega
            simp [h1, h2, h3]
      · apply tabela_congr
        intro i2 j2 _ hj2
        by_cases h1 : i2 = t
        · subst h1
          simp [hj2]
        · by_cases h2 : i2 < t
          · have h3 : i2 < t + 1 := by omega
            simp [h1, h2, h3, hj2]
          · have h3 : ¬ i2 < t + 1 := by omega
            simp [h1, h2, h3])
  rw [key]
  congr 1
  · apply tabela_congr
    intro i j hi hj
    simp [hi, hj]
  · apply tabela_congr
    intro i j hi hj
    simp [hi, hj]

/-- The matrices `benchmark_matrizes` ends with, for a size that is not negative. -/
theorem benchmark_matrizes_eq {α : Type} (ar : Aritmetica α) (n : Int) (h : 0 ≤ n) :
    benchmark_matrizes ar n = .ok
      { a := tabela n.toNat (fun i _ => ar.mul (ar.ofInt ((i : Int) + 1)) ar.meio)
        b := tabela n.toNat (fun _ j => ar.mul (ar.ofInt ((j : Int) + 1)) ar.umEMeio)
        resultado := tabela n.toNat (fun i j =>
          acumula ar (fun k => ar.mul
            ((tabela n.toNat
              (fun i _ => ar.mul (ar.ofInt ((i : Int) + 1)) ar.meio)).le ar.zero i k)
            ((tabela n.toNat
              (fun _ j => ar.mul (ar.ofInt ((j : Int) + 1)) ar.umEMeio)).le ar.zero k j))
            n.toNat ar.zero) } := by
  have hz : (List.replicate n.toNat (List.replicate n.toNat ar.zero) : Matriz α) =
      tabela n.toNat (fun _ _ => ar.zero) := by
    unfold tabela
    apply List.ext_getElem
    · simp
    · intro r h1 h2
      simp
  unfold benchmark_matrizes
  rw [if_neg (by omega)]
  simp only [hz, preenche_tabela, multiplica_tabela]

/-- In exact arithmetic an accumulation is a finite sum. -/
theorem acumula_exata (g : Nat → ℚ) (m : Nat) (x : ℚ) :
    acumula aritExata g m x = x + ∑ k in Finset.range m, g k := by
  induction m with
  | zero => simp [acumula]
  | succ m ih =>
    rw [acumula_succ, ih, Finset.sum_range_succ]
    simp only [aritExata]
    ring

/-! ## The claims -/

/-- C5: the two output streams are separated by outcome. For every clock and
every argument vector, `main` inserts something into `std::cerr` if and only
if it returns exit code 1; in that case it inserts nothing into `std::cout`
and calls none of the three workloads; when it returns 0 nothing is inserted
into `std::cerr`. -/
theorem c5_streams_by_outcome (relogio : Nat → Int) (argv : List String) :
    ((main relogio argv).stderr ≠ [] ↔ (main relogio argv).termino = .retorno 1) ∧
    ((main relogio argv).termino = .retorno 1 →
      (main relogio argv).stdout = [] ∧ (main relogio argv).chamadas = []) ∧
    ((main relogio argv).termino = .retorno 0 → (main relogio argv).stderr = []) := by
  rcases main_streams relogio argv with ⟨h1, h2, h3, h4⟩ | ⟨h1, h2⟩
  · refine ⟨⟨fun _ => h1, fun _ => h2⟩, fun _ => ⟨h3, h4⟩, fun h0 => ?_⟩
    rw [h1] at h0
    exact absurd h0 (by decide)
  · exact ⟨⟨fun h => absurd h2 h, fun h => absurd h h1⟩, fun h => absurd h h1, fun _ => h2⟩

/-- C1 (evaluation at the failing input): the argument `21475` passes the
validation of `main`, and yet `main` does not return 0: the `int` product
`21475 * 100000` wraps to a negative count, the vector constructor of
`benchmark_memoria` throws `length_error`, and nothing catches it. -/
theorem c1_exit_code_at_21475 :
    le_fator_carga "21475" = .ok 21475 ∧
    (main relogioUnitario ["benchmark", "21475"]).termino = .excecao .length_error ∧
    (main relogioUnitario ["benchmark", "21475"]).termino ≠ .retorno 0 ∧
    (main relogioUnitario ["benchmark", "21475"]).termino ≠ .retorno 1 := by
  decide

/-- C2 (counterexample): the positive integer 2147483648 does not fit an
`int`; `std::stoi` throws `out_of_range` on its base-10 string and `main`
returns exit code 1, not 0. -/
theorem c2_counterexample :
    toString (2147483648 : Nat) = "2147483648" ∧
    stoi "2147483648" = .error .out_of_range ∧
    (main relogioUnitario ["benchmark", toString (2147483648 : Nat)]).termino = .retorno 1 ∧
    (main relogioUnitario ["benchmark", toString (2147483648 : Nat)]).stdout = [] := by
  decide

/-- C2 (amended): for every positive integer `n` whose product `n * 100000`
fits an `int` (`1 ≤ n ≤ 21474`), every clock and every program name, `main`
called with the base-10 string of `n` returns exit code 0, and `std::cout`
holds exactly three completion markers, each right after the start message
of its own workload, in the order matrices, maths, memory. -/
theorem c2_three_markers_in_order (relogio : Nat → Int) (prog : String) (n : Nat)
    (h1 : 1 ≤ n) (h2 : n ≤ 21474) :
    (main relogio [prog, toString n]).termino = .retorno 0 ∧
    (main relogio [prog, toString n]).stdout.filter (fun it => decide (it ∈ marcos)) =
      [Item.texto "Executando Benchmark de Matrizes (tamanho ", concluido,
       Item.texto "Executando Benchmark de Matemática (", concluido,
       Item.texto "Executando Benchmark de Memória (", concluido] ∧
    (main relogio [prog, toString n]).stdout.count concluido = 3 := by
  have hs : stoi (toString n) = .ok (n : Int) := stoi_toString n (by unfold INT_MAX; omega)
  have hf : le_fator_carga (([prog, toString n] : List String).getD 1 "") = .ok (n : Int) := by
    simp only [List.getD_cons_succ, List.getD_cons_zero, le_fator_carga, hs]
    rw [if_neg (by omega)]
  have hw : wrap32 ((n : Int) * 100000) = (n : Int) * 100000 := by
    unfold wrap32; omega
  rw [main_completo relogio [prog, toString n] n rfl hf (by rw [hw]; omega)]
  have hm := marcos_completo (n : Int) ((n : Int) * 100000) (relogio 2 - relogio 1)
    (relogio 4 - relogio 3) (relogio 6 - relogio 5) (relogio 7 - relogio 0) _
    (escrito_cases ((n : Int) * 100000))
  rw [hw]
  exact ⟨rfl, hm, contagem_marcos _ hm⟩

/-- C2 (witness): the amended claim at `n = 2`. -/
theorem c2_three_markers_in_order_witness :
    (main relogioUnitario ["benchmark", toString 2]).termino = .retorno 0 ∧
    (main relogioUnitario ["benchmark", toString 2]).stdout.filter
        (fun it => decide (it ∈ marcos)) =
      [Item.texto "Executando Benchmark de Matrizes (tamanho ", concluido,
       Item.texto "Executando Benchmark de Matemática (", concluido,
       Item.texto "Executando Benchmark de Memória (", concluido] ∧
    (main relogioUnitario ["benchmark", toString 2]).stdout.count concluido = 3 :=
  c2_three_markers_in_order relogioUnitario "benchmark" 2 (by decide) (by decide)

/-- C3 (counterexample): `std::stoi` stops at the first character that is not
a digit and ignores the rest, so the arguments `12abc` and `1.5`, which are
not base-10 integer literals, pass the validation as 12 and 1: `main` returns
exit code 0 and prints the results block. -/
theorem c3_counterexample :
    (le_fator_carga "12abc" = .ok 12 ∧
      (main relogioUnitario ["benchmark", "12abc"]).termino = .retorno 0 ∧
      Item.texto "Resultados do Benchmark:" ∈
        (main relogioUnitario ["benchmark", "12abc"]).stdout) ∧
    (le_fator_carga "1.5" = .ok 1 ∧
      (main relogioUnitario ["benchmark", "1.5"]).termino = .retorno 0 ∧
      Item.texto "Resultados do Benchmark:" ∈
        (main relogioUnitario ["benchmark", "1.5"]).stdout) := by
  constructor
  · have hf : le_fator_carga ((["benchmark", "12abc"] : List String).getD 1 "") = .ok 12 := by
      decide
    rw [main_completo relogioUnitario ["benchmark", "12abc"] 12 rfl hf (by decide)]
    exact ⟨hf, rfl, by simp [relatorio]⟩
  · have hf : le_fator_carga ((["benchmark", "1.5"] : List String).getD 1 "") = .ok 1 := by
      decide
    rw [main_completo relogioUnitario ["benchmark", "1.5"] 1 rfl hf (by decide)]
    exact ⟨hf, rfl, by simp [relatorio]⟩

/-- C3 (amended): for every clock, program name and single argument `s` in
which `std::stoi` finds no integer (after the leading white space and an
optional sign there is no decimal digit, as in the empty string and in purely
non-numeric strings), or whose leading integer is zero, negative or larger
than `INT_MAX`, `main` returns exit code 1 and never inserts the results
block (its title and the three duration lines) into `std::cout`. -/
theorem c3_rejected_argument (relogio : Nat → Int) (prog s : String)
    (h : strtol10 s = none ∨ ∃ v, strtol10 s = some v ∧ (v ≤ 0 ∨ INT_MAX < v)) :
    (main relogio [prog, s]).termino = .retorno 1 ∧
    Item.texto "Resultados do Benchmark:" ∉ (main relogio [prog, s]).stdout ∧
    ∀ ticks, Item.ms ticks ∉ (main relogio [prog, s]).stdout := by
  have he : ∃ e, le_fator_carga (([prog, s] : List String).getD 1 "") = .error e := by
    simp only [List.getD_cons_succ, List.getD_cons_zero, le_fator_carga, stoi]
    rcases h with h | ⟨v, h, hv⟩
    · exact ⟨.invalid_argument, by rw [h]⟩
    · rw [h]
      by_cases hr : v < INT_MIN ∨ INT_MAX < v
      · exact ⟨.out_of_range, by simp only [if_pos hr]⟩
      · have hv0 : v ≤ 0 := by
          rcases hv with hv | hv
          · exact hv
          · exact absurd (Or.inr hv) hr
        exact ⟨.invalid_argument, by simp only [if_neg hr, if_pos hv0]⟩
  obtain ⟨e, he⟩ := he
  rw [main_erro relogio [prog, s] e rfl he]
  exact ⟨rfl, by simp, by simp⟩

/-- C3 (witness): the amended claim at the empty argument. -/
theorem c3_rejected_argument_witness :
    (strtol10 "" = none ∨ ∃ v, strtol10 "" = some v ∧ (v ≤ 0 ∨ INT_MAX < v)) ∧
    ((main relogioUnitario ["benchmark", ""]).termino = .retorno 1 ∧
     Item.texto "Resultados do Benchmark:" ∉ (main relogioUnitario ["benchmark", ""]).stdout ∧
     ∀ ticks, Item.ms ticks ∉ (main relogioUnitario ["benchmark", ""]).stdout) :=
  ⟨Or.inl (by decide), c3_rejected_argument relogioUnitario "benchmark" "" (Or.inl (by decide))⟩

/-- C4 (counterexample): with the single argument `abc` the validation fails
in the `catch` block, which inserts only the error line into `std::cerr`: no
usage message and no program name. -/
theorem c4_counterexample :
    (main relogioUnitario ["benchmark", "abc"]).termino = .retorno 1 ∧
    (main relogioUnitario ["benchmark", "abc"]).stderr = mensagem_erro ∧
    Item.texto "Uso: " ∉ (main relogioUnitario ["benchmark", "abc"]).stderr ∧
    Item.texto "benchmark" ∉ (main relogioUnitario ["benchmark", "abc"]).stderr ∧
    Item.texto " <fator_carga>" ∉ (main relogioUnitario ["benchmark", "abc"]).stderr := by
  decide

/-- C4 (amended): on every validation failure `main` returns exit code 1
after inserting a message into `std::cerr`. For a wrong argument count the
message is the usage line, made of the program name and the expected argument
`<fator_carga>`, followed by a line that describes the argument. For a single
argument that `std::stoi` rejects or that is not positive the message is the
error description alone. -/
theorem c4_failure_messages (relogio : Nat → Int) (argv : List String)
    (h : argv.length ≠ 2 ∨ ∃ e, le_fator_carga (argv.getD 1 "") = .error e) :
    (main relogio argv).termino = .retorno 1 ∧
    (argv.length ≠ 2 → (main relogio argv).stderr =
      [Item.texto "Uso: ", Item.texto (argv.headD ""), Item.texto " <fator_carga>", Item.endl,
       Item.texto "Onde <fator_carga> eh um inteiro (ex: 100, 500, 1000).", Item.endl]) ∧
    (argv.length = 2 → (main relogio argv).stderr =
      [Item.texto "Erro: O parâmetro de entrada deve ser um número inteiro válido e positivo.",
       Item.endl]) := by
  by_cases hl : argv.length = 2
  · rcases h with h | ⟨e, he⟩
    · exact absurd hl h
    · rw [main_erro relogio argv e hl he]
      exact ⟨rfl, fun hn => absurd hl hn, fun _ => rfl⟩
  · rw [main_argc relogio argv hl]
    exact ⟨rfl, fun _ => rfl, fun hn => absurd hn hl⟩

/-- C4 (witness): the amended claim for a call without arguments. -/
theorem c4_failure_messages_witness :
    (main relogioUnitario ["benchmark"]).termino = .retorno 1 ∧
    ((["benchmark"] : List String).length ≠ 2 → (main relogioUnitario ["benchmark"]).stderr =
      [Item.texto "Uso: ", Item.texto "benchmark", Item.texto " <fator_carga>", Item.endl,
       Item.texto "Onde <fator_carga> eh um inteiro (ex: 100, 500, 1000).", Item.endl]) ∧
    ((["benchmark"] : List String).length = 2 → (main relogioUnitario ["benchmark"]).stderr =
      [Item.texto "Erro: O parâmetro de entrada deve ser um número inteiro válido e positivo.",
       Item.endl]) :=
  c4_failure_messages relogioUnitario ["benchmark"] (Or.inl (by decide))

/-- C8 (evaluation at the failing input): for the load factor 21475 the count
`main` passes to `benchmark_matematica` and to `benchmark_memoria` is
-2147467296, not the product 2147500000, and the loop of
`benchmark_matematica` runs zero times. -/
theorem c8_count_at_21475 :
    le_fator_carga "21475" = .ok 21475 ∧
    (main relogioUnitario ["benchmark", "21475"]).chamadas =
      [.matrizes 21475, .matematica (-2147467296), .memoria (-2147467296)] ∧
    wrap32 (21475 * 100000) = -2147467296 ∧
    wrap32 (21475 * 100000) ≠ 21475 * 100000 ∧
    iteracoes (wrap32 (21475 * 100000)) = 0 := by
  decide

/-- C6 (counterexample): for `count = 4294967297` (`2^32 + 1`, a vector of
32 GiB) the sum of `0..count-1` is `9223372039002259456`, above the largest
`long long`; the accumulator `soma` ends at `-9223372034707292160`, not at
`count * (count - 1) / 2`. The call does not throw. -/
theorem c6_counterexample :
    soma_memoria 4294967297 = -9223372034707292160 ∧
    (4294967297 : Int) * (4294967297 - 1) / 2 = 9223372039002259456 ∧
    soma_memoria 4294967297 ≠ 4294967297 * (4294967297 - 1) / 2 ∧
    benchmark_memoria 4294967297 = .ok [] := by
  have hi : iteracoes 4294967297 = 4294967297 := by decide
  have hs : soma_memoria 4294967297 = -9223372034707292160 := by
    rw [soma_memoria_eq, soma_fechada, hi]
    decide
  refine ⟨hs, by decide, ?_, ?_⟩
  · rw [hs]; decide
  · rw [benchmark_memoria_ok _ (by decide) (by decide), hs]
    decide

/-- C6 (amended): for every count with `0 ≤ count ≤ 4294967296` (`2^32`),
the write loop of `benchmark_memoria` leaves element `i` equal to `i`, and
after the read loop the accumulator `soma` equals `count * (count - 1) / 2`,
the sum of `0..count-1`. -/
theorem c6_accumulator_closed_form (count : Int) (h0 : 0 ≤ count) (h1 : count ≤ 4294967296) :
    memoria_escrita (iteracoes count) = (List.range (iteracoes count)).map Int.ofNat ∧
    soma_memoria count = count * (count - 1) / 2 := by
  refine ⟨memoria_escrita_eq _, ?_⟩
  have hn : ((iteracoes count : Nat) : Int) = count := by
    unfold iteracoes; omega
  have h2 := soma_dobro (iteracoes count)
  have hf := soma_fechada (iteracoes count)
  rw [soma_memoria_eq]
  rw [hn] at h2 hf
  have hp : count * (count - 1) ≤ 18446744069414584320 := by nlinarith
  have hp0 : 0 ≤ count * (count - 1) ∨ count = 0 := by
    by_cases hc : count = 0
    · exact Or.inr hc
    · left
      have : 1 ≤ count := by omega
      nlinarith
  rw [← hf]
  generalize ((∑ i in Finset.range (iteracoes count), i : Nat) : Int) = t at h2 hf ⊢
  apply wrap64_id
  · rcases hp0 with hp0 | hp0
    · omega
    · subst hp0; simp at h2; omega
  · omega

/-- C6 (witness): the amended claim at `count = 10`, where `soma` is 45. -/
theorem c6_accumulator_closed_form_witness :
    memoria_escrita (iteracoes 10) = (List.range (iteracoes 10)).map Int.ofNat ∧
    soma_memoria 10 = 10 * (10 - 1) / 2 :=
  c6_accumulator_closed_form 10 (by decide) (by decide)

/-- C9: the anti-optimization guard of the memory workload is unreachable.
For every count a `long long` can hold, from 0 on, the accumulator `soma` of
`benchmark_memoria` differs from the sentinel 123, also when the 64-bit sum
wraps; so the call either inserts nothing into `std::cout` or, above the
largest vector size, throws before any loop runs. -/
theorem c9_sentinel_unreachable (count : Int) (h0 : 0 ≤ count)
    (h1 : count ≤ 9223372036854775807) :
    soma_memoria count ≠ 123 ∧
    (count ≤ vector_max_size → benchmark_memoria count = .ok []) ∧
    (vector_max_size < count → benchmark_memoria count = .error .length_error) ∧
    ∀ escrito, benchmark_memoria count = .ok escrito → escrito = [] := by
  have hs := soma_memoria_ne_123 count h1
  have hok : count ≤ vector_max_size → benchmark_memoria count = .ok [] := by
    intro hm
    rw [benchmark_memoria_ok count h0 hm, if_neg hs]
  have hth : vector_max_size < count → benchmark_memoria count = .error .length_error := by
    intro hm
    unfold benchmark_memoria
    rw [if_pos (Or.inr hm)]
  refine ⟨hs, hok, hth, ?_⟩
  intro escrito he
  by_cases hm : count ≤ vector_max_size
  · rw [hok hm] at he
    exact (Except.ok.inj he).symm
  · rw [hth (by omega)] at he
    exact absurd he (by simp)

/-- C9 (witness): the claim at `count = 17`, where `soma` is 136. -/
theorem c9_sentinel_unreachable_witness :
    soma_memoria 17 ≠ 123 ∧
    ((17 : Int) ≤ vector_max_size → benchmark_memoria 17 = .ok []) ∧
    (vector_max_size < (17 : Int) → benchmark_memoria 17 = .error .length_error) ∧
    ∀ escrito, benchmark_memoria 17 = .ok escrito → escrito = [] :=
  c9_sentinel_unreachable 17 (by decide) (by decide)

/-- C10: for every count with `0 ≤ count ≤ 2^31 - 1`, which covers every
count `f * 100000` with `1 ≤ f ≤ 21474` that `main` passes without overflow
of the `int` product, the read loop of `benchmark_memoria` runs over the
`count` elements written by the write loop; after each of its first `k ≤ count`
iterations the running sum is the sum of `0..k-1`, lies in the signed 64-bit
range, and the 64-bit accumulator agrees with the unbounded one; the final
`soma` is the running sum after `count` iterations, the mathematical sum of
`0..count-1`, that is `count * (count - 1) / 2`. -/
theorem c10_accumulator_never_wraps (count : Int) (h0 : 0 ≤ count) (h1 : count ≤ 2147483647) :
    (∀ k, k ≤ count.toNat →
      memoria_leitura_exata (memoria_escrita count.toNat) k =
        ((∑ i in Finset.range k, i : Nat) : Int) ∧
      -9223372036854775808 ≤ memoria_leitura_exata (memoria_escrita count.toNat) k ∧
      memoria_leitura_exata (memoria_escrita count.toNat) k ≤ 9223372036854775807 ∧
      memoria_leitura (memoria_escrita count.toNat) k =
        memoria_leitura_exata (memoria_escrita count.toNat) k) ∧
    soma_memoria count = memoria_leitura (memoria_escrita count.toNat) count.toNat ∧
    soma_memoria count = ((∑ i in Finset.range count.toNat, i : Nat) : Int) ∧
    soma_memoria count = count * (count - 1) / 2 ∧
    (∀ f : Int, 1 ≤ f → f ≤ 21474 →
      wrap32 (f * 100000) = f * 100000 ∧ 0 ≤ f * 100000 ∧ f * 100000 ≤ 2147483647) := by
  have hn : ((count.toNat : Nat) : Int) = count := Int.toNat_of_nonneg h0
  have hpar : ∀ k, k ≤ count.toNat →
      memoria_leitura_exata (memoria_escrita count.toNat) k =
        ((∑ i in Finset.range k, i : Nat) : Int) ∧
      -9223372036854775808 ≤ memoria_leitura_exata (memoria_escrita count.toNat) k ∧
      memoria_leitura_exata (memoria_escrita count.toNat) k ≤ 9223372036854775807 := by
    intro k hk
    have hsum := leitura_exata_soma (memoria_escrita count.toNat) k
      (fun i hi => memoria_escrita_getD _ i (Nat.lt_of_lt_of_le hi hk))
    refine ⟨hsum, ?_⟩
    rw [hsum]
    have h2 := soma_dobro k
    have hk1 : (k : Int) ≤ 2147483647 := by
      have : (k : Int) ≤ (count.toNat : Int) := by exact_mod_cast hk
      omega
    have hk0 : (0 : Int) ≤ (k : Int) := Int.ofNat_nonneg k
    have hp : (k : Int) * ((k : Int) - 1) ≤ 4611686011984936962 := by nlinarith
    have ht0 : (0 : Int) ≤ ((∑ i in Finset.range k, i : Nat) : Int) := Int.ofNat_nonneg _
    generalize ((∑ i in Finset.range k, i : Nat) : Int) = t at h2 ht0 ⊢
    constructor <;> omega
  have hfim : soma_memoria count = memoria_leitura (memoria_escrita count.toNat) count.toNat := by
    unfold soma_memoria iteracoes
    rfl
  obtain ⟨hs, ha, hb⟩ := hpar count.toNat (Nat.le_refl _)
  have hsoma : soma_memoria count = ((∑ i in Finset.range count.toNat, i : Nat) : Int) := by
    rw [hfim, leitura_wrap, wrap64_id _ ha hb, hs]
  refine ⟨?_, hfim, hsoma, ?_, ?_⟩
  · intro k hk
    obtain ⟨hs2, ha2, hb2⟩ := hpar k hk
    exact ⟨hs2, ha2, hb2, by rw [leitura_wrap, wrap64_id _ ha2 hb2]⟩
  · rw [hsoma, soma_fechada, hn]
  · intro f hf1 hf2
    unfold wrap32
    omega

/-- C10 (witness): the claim at `count = 100000`, the count of load factor 1. -/
theorem c10_accumulator_never_wraps_witness :
    (∀ k, k ≤ (100000 : Int).toNat →
      memoria_leitura_exata (memoria_escrita (100000 : Int).toNat) k =
        ((∑ i in Finset.range k, i : Nat) : Int) ∧
      -9223372036854775808 ≤ memoria_leitura_exata (memoria_escrita (100000 : Int).toNat) k ∧
      memoria_leitura_exata (memoria_escrita (100000 : Int).toNat) k ≤ 9223372036854775807 ∧
      memoria_leitura (memoria_escrita (100000 : Int).toNat) k =
        memoria_leitura_exata (memoria_escrita (100000 : Int).toNat) k) ∧
    soma_memoria 100000 =
      memoria_leitura (memoria_escrita (100000 : Int).toNat) (100000 : Int).toNat ∧
    soma_memoria 100000 = ((∑ i in Finset.range (100000 : Int).toNat, i : Nat) : Int) ∧
    soma_memoria 100000 = 100000 * (100000 - 1) / 2 ∧
    (∀ f : Int, 1 ≤ f → f ≤ 21474 →
      wrap32 (f * 100000) = f * 100000 ∧ 0 ≤ f * 100000 ∧ f * 100000 ≤ 2147483647) :=
  c10_accumulator_never_wraps 100000 (by decide) (by decide)

/-- C7: in exact rational arithmetic, for every `n ≥ 1`, `benchmark_matrizes`
returns with `a[i][j] = (i + 1) * 0.5`, `b[i][j] = (j + 1) * 1.5` and
`resultado` equal to the matrix product: for all `0 ≤ i, j < n`,
`resultado[i][j]` is the sum over `k < n` of `a[i][k] * b[k][j]`, which is
`n * (i + 1) * (j + 1) * 0.75`. For `n = 2` the three matrices are
`[[0.5, 0.5], [1, 1]]`, `[[1.5, 3], [1.5, 3]]` and `[[1.5, 3], [3, 6]]`. -/
theorem c7_matrix_product (n : Int) (h : 1 ≤ n) :
    ∃ m, benchmark_matrizes aritExata n = .ok m ∧
      (∀ i j : Nat, (i : Int) < n → (j : Int) < n →
        Matriz.le 0 m.a i j = ((i : ℚ) + 1) * 0.5 ∧
        Matriz.le 0 m.b i j = ((j : ℚ) + 1) * 1.5 ∧
        Matriz.le 0 m.resultado i j =
          ∑ k in Finset.range n.toNat, Matriz.le 0 m.a i k * Matriz.le 0 m.b k j ∧
        Matriz.le 0 m.resultado i j = (n : ℚ) * ((i : ℚ) + 1) * ((j : ℚ) + 1) * 0.75) ∧
      (n = 2 →
        m.a = [[0.5, 0.5], [1, 1]] ∧
        m.b = [[1.5, 3], [1.5, 3]] ∧
        m.resultado = [[1.5, 3], [3, 6]]) := by
  refine ⟨_, benchmark_matrizes_eq aritExata n (by omega), ?_, ?_⟩
  · intro i j hi hj
    have hi2 : i < n.toNat := by omega
    have hj2 : j < n.toNat := by omega
    have hn : ((n.toNat : Nat) : ℚ) = (n : ℚ) := by
      have : ((n.toNat : Nat) : Int) = n := Int.toNat_of_nonneg (by omega)
      exact_mod_cast this
    have ha : ∀ k, k < n.toNat → Matriz.le (0 : ℚ)
        (tabela n.toNat (fun i _ => aritExata.mul (aritExata.ofInt ((i : Int) + 1))
          aritExata.meio)) i k = ((i : ℚ) + 1) * 0.5 := by
      intro k hk
      rw [tabela_le _ _ _ _ _ hi2 hk]
      simp only [aritExata]
      push_cast
      norm_num
    have hb : ∀ k, k < n.toNat → Matriz.le (0 : ℚ)
        (tabela n.toNat (fun _ j => aritExata.mul (aritExata.ofInt ((j : Int) + 1))
          aritExata.umEMeio)) k j = ((j : ℚ) + 1) * 1.5 := by
      intro k hk
      rw [tabela_le _ _ _ _ _ hk hj2]
      simp only [aritExata]
      push_cast
      norm_num
    have hsum : ∑ k in Finset.range n.toNat,
        Matriz.le (0 : ℚ) (tabela n.toNat (fun i _ => aritExata.mul
          (aritExata.ofInt ((i : Int) + 1)) aritExata.meio)) i k *
        Matriz.le (0 : ℚ) (tabela n.toNat (fun _ j => aritExata.mul
          (aritExata.ofInt ((j : Int) + 1)) aritExata.umEMeio)) k j =
        (n : ℚ) * ((i : ℚ) + 1) * ((j : ℚ) + 1) * 0.75 := by
      rw [Finset.sum_congr rfl (fun k hk => by
        rw [ha k (Finset.mem_range.mp hk), hb k (Finset.mem_range.mp hk)])]
      rw [Finset.sum_const, Finset.card_range, nsmul_eq_mul, hn]
      norm_num
      ring
    have hres : Matriz.le (0 : ℚ) (tabela n.toNat (fun i j =>
          acumula aritExata (fun k => aritExata.mul
            ((tabela n.toNat
              (fun i _ => aritExata.mul (aritExata.ofInt ((i : Int) + 1))
                aritExata.meio)).le aritExata.zero i k)
            ((tabela n.toNat
              (fun _ j => aritExata.mul (aritExata.ofInt ((j : Int) + 1))
                aritExata.umEMeio)).le aritExata.zero k j))
            n.toNat aritExata.zero)) i j =
        ∑ k in Finset.range n.toNat,
          Matriz.le (0 : ℚ) (tabela n.toNat (fun i _ => aritExata.mul
            (aritExata.ofInt ((i : Int) + 1)) aritExata.meio)) i k *
          Matriz.le (0 : ℚ) (tabela n.toNat (fun _ j => aritExata.mul
            (aritExata.ofInt ((j : Int) + 1)) aritExata.umEMeio)) k j := by
      rw [tabela_le _ _ _ _ _ hi2 hj2, acumula_exata]
      simp only [aritExata, zero_add]
    exact ⟨ha j hj2, hb i hi2, hres, hres.trans hsum⟩
  · intro h2
    subst h2
    have hr : List.range 2 = [0, 1] := by decide
    have ht : (2 : Int).toNat = 2 := by decide
    simp only [ht, tabela, hr, List.map_cons, List.map_nil, acumula, List.foldl_cons,
      List.foldl_nil, Matriz.le, List.getD_cons_zero, List.getD_cons_succ, aritExata]
    norm_num

/-- C7 (witness): the claim at `n = 2`. -/
theorem c7_matrix_product_witness :
    ∃ m, benchmark_matrizes aritExata 2 = .ok m ∧
      (∀ i j : Nat, (i : Int) < 2 → (j : Int) < 2 →
        Matriz.le 0 m.a i j = ((i : ℚ) + 1) * 0.5 ∧
        Matriz.le 0 m.b i j = ((j : ℚ) + 1) * 1.5 ∧
        Matriz.le 0 m.resultado i j =
          ∑ k in Finset.range (2 : Int).toNat, Matriz.le 0 m.a i k * Matriz.le 0 m.b k j ∧
        Matriz.le 0 m.resultado i j = ((2 : Int) : ℚ) * ((i : ℚ) + 1) * ((j : ℚ) + 1) * 0.75) ∧
      ((2 : Int) = 2 →
        m.a = [[0.5, 0.5], [1, 1]] ∧
        m.b = [[1.5, 3], [1.5, 3]] ∧
        m.resultado = [[1.5, 3], [3, 6]]) :=
  c7_matrix_product 2 (by decide)

end Benchmark
